import Mathlib

/-!
Shallow embedding of `src/crud.py` (FastAPI CRUD service for companies and
employees, SQLAlchemy-backed).  Database tables become lists of rows, a
session becomes explicit state passing, and each route handler becomes a
function returning `Except ApiError` (an HTTPException or, for faithful
modelling of a Python runtime error, a TypeError).
-/

namespace Crud

/-- Python `str.split(sep)` for a single-character separator, on the
character list: accumulates the current fragment (reversed) and cuts at
every separator occurrence.  `"".split(",") = [""]`, `",".split(",") = ["",""]`. -/
def splitCommaAux : List Char → List Char → List (List Char)
  | [], acc => [acc.reverse]
  | c :: rest, acc =>
    if c = ',' then acc.reverse :: splitCommaAux rest []
    else splitCommaAux rest (c :: acc)

/-- Python `",".join(parts)` on character lists. -/
def joinCommaChars : List (List Char) → List Char
  | [] => []
  | [x] => x
  | x :: y :: ys => x ++ ',' :: joinCommaChars (y :: ys)

/-- Python `s.split(",")` (src/crud.py line 148). -/
def pySplitComma (s : String) : List String :=
  (splitCommaAux s.data []).map (fun cs => ⟨cs⟩)

/-- Python `",".join(branches)` (src/crud.py lines 183, 248). -/
def pyJoinComma (l : List String) : String :=
  ⟨joinCommaChars (l.map String.data)⟩

/-- A row of the `companies` table (class Company, src/crud.py lines 42-57).
Nullable columns are `Option`s; `branches` is the raw delimited Text column. -/
structure CompanyRow where
  id : Nat
  name : String
  email : String
  phone : String
  address : Option String
  city : Option String
  state : Option String
  country : Option String
  branches : Option String
  certificate_path : Option String
  logo_path : Option String
  is_active : Bool
  created_at : Nat
deriving Repr, DecidableEq

/-- A row of the `employees` table (class Employee, src/crud.py lines 60-68).
The credential column is named `password` (renamed from `password_hash`,
per the comment on line 66). -/
structure EmployeeRow where
  id : Nat
  name : String
  email : String
  password : String
  role : String
  company : String
deriving Repr, DecidableEq

/-- The database state: both tables plus the autoincrement counters that
assign primary keys on insert. -/
structure DB where
  companies : List CompanyRow
  employees : List EmployeeRow
  nextCompanyId : Nat
  nextEmployeeId : Nat
deriving Repr, DecidableEq

/-- How a handler terminates abnormally: an HTTPException with status and
detail, or an uncaught Python TypeError (surfaced as a 500 by the framework). -/
inductive ApiError where
  | http (status : Nat) (detail : String)
  | typeError (msg : String)
deriving Repr, DecidableEq

/-- Response schema CompanyOut (src/crud.py lines 76-92): `branches` is the
delimited column re-expanded to a list. -/
structure CompanyOut where
  id : Nat
  name : String
  email : String
  phone : String
  address : Option String
  city : Option String
  state : Option String
  country : Option String
  branches : List String
  certificate_path : Option String
  logo_path : Option String
  is_active : Bool
  created_at : Nat
deriving Repr, DecidableEq

/-- Python truthiness of `company.branches` followed by `.split(",")`
(src/crud.py line 148): `None` and `""` are falsy and give `[]`. -/
def branchesOut : Option String → List String
  | none => []
  | some s => if s = "" then [] else pySplitComma s

/-- enrich_company_output (src/crud.py lines 138-153). -/
def enrich_company_output (c : CompanyRow) : CompanyOut :=
  { id := c.id, name := c.name, email := c.email, phone := c.phone,
    address := c.address, city := c.city, state := c.state,
    country := c.country, branches := branchesOut c.branches,
    certificate_path := c.certificate_path, logo_path := c.logo_path,
    is_active := c.is_active, created_at := c.created_at }

/-- Parsed form input of POST /companies (src/crud.py lines 160-172).
`certificate`/`logo` carry the path that `save_upload` would return for the
uploaded file, since the handler stores only that path. -/
structure CompanyCreate where
  name : String
  email : String
  phone : String
  address : Option String
  city : Option String
  state : String
  country : String
  branches : List String
  is_active : Bool
  certificate : Option String
  logo : Option String
deriving Repr, DecidableEq

/-- The row that create_company inserts (src/crud.py lines 180-187):
branches joined with ",", the autoincrement id, the server-set timestamp. -/
def createdRow (db : DB) (req : CompanyCreate) (now : Nat) : CompanyRow :=
  { id := db.nextCompanyId, name := req.name, email := req.email,
    phone := req.phone, address := req.address, city := req.city,
    state := some req.state, country := some req.country,
    branches := some (pyJoinComma req.branches),
    certificate_path := req.certificate, logo_path := req.logo,
    is_active := req.is_active, created_at := now }

/-- The database state after a successful create_company commit. -/
def afterCreate (db : DB) (req : CompanyCreate) (now : Nat) : DB :=
  { db with
    companies := db.companies ++ [createdRow db req now]
    nextCompanyId := db.nextCompanyId + 1 }

/-- create_company (src/crud.py lines 159-191): reject a duplicate email
with 400, otherwise insert the joined-branches row and return it enriched. -/
def create_company (db : DB) (req : CompanyCreate) (now : Nat) :
    Except ApiError (CompanyOut × DB) :=
  if (db.companies.find? (fun c => c.email == req.email)).isSome then
    .error (.http 400 "Email already in use")
  else
    .ok (enrich_company_output (createdRow db req now), afterCreate db req now)

/-- The `x_region` dependency of list_companies (src/crud.py line 196):
`Depends(lambda: None)` is the constant-None provider. -/
def x_region_dep : Option String := none

/-- list_companies (src/crud.py lines 194-203): Python truthiness of
`x_region` guards the city filter. -/
def list_companies (db : DB) : List CompanyOut :=
  let q := match x_region_dep with
    | some r => if r == "" then db.companies
                else db.companies.filter (fun c => c.city == some r)
    | none => db.companies
  q.map enrich_company_output

/-- get_company (src/crud.py lines 206-211): primary-key lookup, 404 when absent. -/
def get_company (db : DB) (company_id : Nat) : Except ApiError CompanyOut :=
  match db.companies.find? (fun c => c.id == company_id) with
  | none => .error (.http 404 "Company not found")
  | some c => .ok (enrich_company_output c)

/-- Parsed form input of PUT /companies/id (src/crud.py lines 217-227):
every field optional; `certificate`/`logo` carry the saved upload path. -/
structure CompanyUpdate where
  name : Option String
  email : Option String
  phone : Option String
  address : Option String
  city : Option String
  state : Option String
  country : Option String
  branches : Option (List String)
  is_active : Option Bool
  certificate : Option String
  logo : Option String
deriving Repr, DecidableEq

/-- The email-collision guard of update_company (src/crud.py lines 234-236):
`if email and email != company.email` (Python truthiness, so the empty
string also skips), then a table scan for that email. -/
def emailChangeConflict (db : DB) (company : CompanyRow) (req : CompanyUpdate) : Bool :=
  match req.email with
  | none => false
  | some e =>
    e != "" && e != company.email &&
      (db.companies.find? (fun c => c.email == e)).isSome

/-- The `updates` dict loop plus the branches/certificate/logo blocks of
update_company (src/crud.py lines 238-253): each field is assigned only
when the request value is not None. -/
def applyUpdates (company : CompanyRow) (req : CompanyUpdate) : CompanyRow :=
  let c := company
  let c := match req.name with | some v => { c with name := v } | none => c
  let c := match req.email with | some v => { c with email := v } | none => c
  let c := match req.phone with | some v => { c with phone := v } | none => c
  let c := match req.address with | some v => { c with address := some v } | none => c
  let c := match req.city with | some v => { c with city := some v } | none => c
  let c := match req.state with | some v => { c with state := some v } | none => c
  let c := match req.country with | some v => { c with country := some v } | none => c
  let c := match req.is_active with | some v => { c with is_active := v } | none => c
  let c := match req.branches with
    | some bs => { c with branches := some (pyJoinComma bs) } | none => c
  let c := match req.certificate with
    | some p => { c with certificate_path := some p } | none => c
  let c := match req.logo with
    | some p => { c with logo_path := some p } | none => c
  c

/-- update_company (src/crud.py lines 214-257): 404 when the id is absent,
400 on an email collision, otherwise mutate the found row in place and
return it enriched. -/
def update_company (db : DB) (company_id : Nat) (req : CompanyUpdate) :
    Except ApiError (CompanyOut × DB) :=
  match db.companies.find? (fun c => c.id == company_id) with
  | none => .error (.http 404 "Company not found")
  | some company =>
    if emailChangeConflict db company req then
      .error (.http 400 "Email already in use")
    else
      let c' := applyUpdates company req
      .ok (enrich_company_output c',
        { db with companies :=
            db.companies.map (fun r => if r.id == company_id then c' else r) })

/-- delete_company (src/crud.py lines 260-266): 404 when the id is absent,
otherwise remove the row. -/
def delete_company (db : DB) (company_id : Nat) : Except ApiError DB :=
  match db.companies.find? (fun c => c.id == company_id) with
  | none => .error (.http 404 "Company not found")
  | some _ =>
    .ok { db with companies := db.companies.filter (fun c => !(c.id == company_id)) }

/-- Modelled from the spec: the external passlib bcrypt `CryptContext.hash`
(src/crud.py lines 38, 280), "a salted one-way hash (cost-factor algorithm,
not reversible)".  The model makes the salt an explicit input and produces a
modular-crypt-format digest string; what the claims need of it is that the
output depends on the salt and never equals the plaintext, and that
verification recomputes against the embedded salt. -/
def bcryptHash (salt pw : String) : String :=
  "$2b$12$" ++ salt ++ "$" ++ pw

/-- Boolean check that `pre` begins the character list `s`. -/
def startsWithChars (pre s : List Char) : Bool :=
  s.take pre.length == pre

/-- Boolean check that `suff` ends the character list `s`. -/
def endsWithChars (suff s : List Char) : Bool :=
  suff.length ≤ s.length && s.drop (s.length - suff.length) == suff

/-- Modelled from the spec: the external passlib bcrypt
`CryptContext.verify` (src/crud.py line 304), checking a candidate
plaintext against a stored digest: the digest must carry the scheme header
and its payload must end with the salt-separated plaintext image. -/
def bcryptVerify (pw digest : String) : Bool :=
  startsWithChars ("$2b$12$").data digest.data &&
    endsWithChars ('$' :: pw.data) digest.data

/-- Request body of POST /employees/register (class EmployeeRegister,
src/crud.py lines 95-100). -/
structure EmployeeRegister where
  name : String
  email : String
  password : String
  role : String
  company_name : String
deriving Repr, DecidableEq

/-- register_employee (src/crud.py lines 270-293): 400 on a duplicate
employee email, 404 when no company bears `company_name`; otherwise the
handler hashes the password and builds
`Employee(..., password_hash=hashed_password, ...)` — but the mapped class
renamed that column to `password` (line 66), so the SQLAlchemy declarative
constructor raises `TypeError: invalid keyword argument`, and no row is
ever inserted.  `salt` is the random salt bcrypt would draw. -/
def register_employee (db : DB) (emp : EmployeeRegister) (salt : String) :
    Except ApiError (EmployeeRow × DB) :=
  if (db.employees.find? (fun e => e.email == emp.email)).isSome then
    .error (.http 400 "Employee email already exists")
  else if (db.companies.find? (fun c => c.name == emp.company_name)).isNone then
    .error (.http 404 "Company not found")
  else
    let hashed_password := bcryptHash salt emp.password
    let _ := hashed_password
    .error (.typeError "password_hash is an invalid keyword argument for Employee")

/-- Request body of POST /employees/login (class EmployeeLogin,
src/crud.py lines 114-116). -/
structure EmployeeLogin where
  email : String
  password : String
deriving Repr, DecidableEq

/-- The success payload of login_employee: employee_id, name, role
(src/crud.py lines 306-311). -/
structure LoginOut where
  employee_id : Nat
  name : String
  role : String
deriving Repr, DecidableEq

/-- login_employee (src/crud.py lines 301-311): look up by email; 401 when
the email is absent or the password does not verify against the stored
`password` column. -/
def login_employee (db : DB) (emp : EmployeeLogin) : Except ApiError LoginOut :=
  match db.employees.find? (fun e => e.email == emp.email) with
  | none => .error (.http 401 "Invalid email or password")
  | some employee =>
    if bcryptVerify emp.password employee.password then
      .ok { employee_id := employee.id, name := employee.name, role := employee.role }
    else
      .error (.http 401 "Invalid email or password")

/-- The all-absent PUT form: every optional field omitted. -/
def noUpdate : CompanyUpdate :=
  { name := none, email := none, phone := none, address := none, city := none,
    state := none, country := none, branches := none, is_active := none,
    certificate := none, logo := none }

/-- A PUT form supplying only the city field. -/
def cityOnly (x : String) : CompanyUpdate := { noUpdate with city := some x }

/-- A PUT form supplying only the email field. -/
def emailOnly (e : String) : CompanyUpdate := { noUpdate with email := some e }

/-- The state in which exactly the city of the row keyed `cid` changed. -/
def cityPatched (db : DB) (cid : Nat) (x : String) : DB :=
  { db with companies := db.companies.map (fun r => if r.id == cid then { r with city := some x } else r) }

/-- Concrete fixture: a stored company row. -/
def wAcme : CompanyRow :=
  { id := 1, name := "Acme", email := "a@x.com", phone := "555",
    address := none, city := some "Austin", state := some "TX",
    country := some "US", branches := some "east,west",
    certificate_path := none, logo_path := none, is_active := true,
    created_at := 10 }

/-- Concrete fixture: a second stored company row. -/
def wBeta : CompanyRow :=
  { id := 2, name := "Beta", email := "b@x.com", phone := "556",
    address := some "1 Main St", city := none, state := some "CA",
    country := some "US", branches := none,
    certificate_path := some "uploads/certificates/abc.pdf", logo_path := none,
    is_active := false, created_at := 11 }

/-- Concrete fixture: a stored employee row holding a bcrypt digest. -/
def wEmpBob : EmployeeRow :=
  { id := 1, name := "Bob", email := "bob@x.com",
    password := bcryptHash "s1" "pw", role := "dev", company := "Acme" }

/-- Concrete fixture: a populated database state. -/
def wDB : DB :=
  { companies := [wAcme, wBeta], employees := [wEmpBob],
    nextCompanyId := 3, nextEmployeeId := 2 }

/-- Concrete fixture: the empty database state. -/
def dbEmpty : DB :=
  { companies := [], employees := [], nextCompanyId := 1, nextEmployeeId := 1 }

/-- Concrete fixture: a create form with a fresh email. -/
def wReqNew : CompanyCreate :=
  { name := "Gamma", email := "c@x.com", phone := "557", address := none,
    city := some "Reno", state := "NV", country := "US",
    branches := ["east", "west"], is_active := true,
    certificate := none, logo := none }

/-- Concrete fixture: a create form reusing the email of `wAcme`. -/
def wReqDup : CompanyCreate :=
  { name := "Fake Acme", email := "a@x.com", phone := "558", address := none,
    city := none, state := "TX", country := "US", branches := ["hq"],
    is_active := true, certificate := none, logo := none }

/-- Concrete fixture: a create form whose single branch label holds a comma. -/
def wReqComma : CompanyCreate :=
  { name := "Delta", email := "d@x.com", phone := "559", address := none,
    city := none, state := "OR", country := "US", branches := ["a,b"],
    is_active := true, certificate := none, logo := none }

/-- Concrete fixture: the database after deleting `wAcme` from `wDB`. -/
def wDBdel : DB :=
  { companies := [wBeta], employees := [wEmpBob],
    nextCompanyId := 3, nextEmployeeId := 2 }

/-- Concrete fixture: a registration with a fresh email against the
existing company name "Acme". -/
def wRegOk : EmployeeRegister :=
  { name := "Carol", email := "carol@x.com", password := "hunter2",
    role := "qa", company_name := "Acme" }

/-- Concrete fixture: a registration whose email is already registered and
whose company name matches no stored company. -/
def wRegGhost : EmployeeRegister :=
  { name := "Bob", email := "bob@x.com", password := "pw2",
    role := "dev", company_name := "Ghost" }

/-- Splitting skips over a comma-free prefix, accumulating it reversed. -/
lemma splitCommaAux_append (x : List Char) :
    ',' ∉ x → ∀ (l acc : List Char),
      splitCommaAux (x ++ l) acc = splitCommaAux l (x.reverse ++ acc) := by
  induction x with
  | nil => intro _ l acc; rfl
  | cons c cs ih =>
    intro hx l acc
    have hc : ¬ c = ',' := by
      intro hcontra
      exact hx (by simp [hcontra])
    have hcs : ',' ∉ cs := fun hmem => hx (List.mem_cons_of_mem c hmem)
    simp only [List.cons_append, splitCommaAux, if_neg hc]
    show splitCommaAux (cs ++ l) (c :: acc) = splitCommaAux l ((c :: cs).reverse ++ acc)
    rw [ih hcs l (c :: acc)]
    simp [List.append_assoc]

/-- Splitting on "," undoes joining with "," when no fragment holds a comma. -/
lemma splitCommaAux_joinComma (x : List Char) (xs : List (List Char)) :
    (∀ y ∈ x :: xs, ',' ∉ y) →
      splitCommaAux (joinCommaChars (x :: xs)) [] = x :: xs := by
  induction xs generalizing x with
  | nil =>
    intro h
    have hx : ',' ∉ x := h x (by simp)
    simp only [joinCommaChars]
    rw [← List.append_nil x, splitCommaAux_append x hx [] []]
    simp [splitCommaAux]
  | cons y ys ih =>
    intro h
    have hx : ',' ∉ x := h x (by simp)
    have ht : ∀ z ∈ y :: ys, ',' ∉ z := fun z hz => h z (List.mem_cons_of_mem x hz)
    simp only [joinCommaChars]
    rw [splitCommaAux_append x hx (',' :: joinCommaChars (y :: ys)) []]
    simp only [splitCommaAux, if_pos rfl]
    rw [ih y ht]
    simp

/-- Rebuilding strings from their character lists is the identity. -/
lemma map_mk_map_data (xs : List String) :
    (xs.map String.data).map (fun cs => (⟨cs⟩ : String)) = xs := by
  rw [List.map_map]
  exact (List.map_congr_left fun a _ => rfl).trans (List.map_id xs)

/-- String-level round trip: Python `",".join` then `.split(",")` restores
any nonempty list of comma-free labels. -/
lemma pySplitComma_pyJoinComma (x : String) (xs : List String)
    (h : ∀ b ∈ x :: xs, ',' ∉ b.data) :
    pySplitComma (pyJoinComma (x :: xs)) = x :: xs := by
  have hmap : ∀ y ∈ x.data :: xs.map String.data, ',' ∉ y := by
    intro y hy
    rcases List.mem_cons.mp hy with hy | hy
    · rw [hy]; exact h x (by simp)
    · rcases List.mem_map.mp hy with ⟨b, hb, rfl⟩
      exact h b (List.mem_cons_of_mem x hb)
  have hsplit := splitCommaAux_joinComma x.data (xs.map String.data) hmap
  show (splitCommaAux (joinCommaChars (x.data :: xs.map String.data)) []).map
        (fun cs => (⟨cs⟩ : String)) = x :: xs
  rw [hsplit]
  simp only [List.map_cons, map_mk_map_data]

/-- Joining a single label is that label itself. -/
lemma pyJoinComma_single (x : String) : pyJoinComma [x] = x := rfl

/-- Joining two or more labels always yields a nonempty string (it holds at
least the separator comma). -/
lemma pyJoinComma_cons_cons_ne_empty (x y : String) (ys : List String) :
    pyJoinComma (x :: y :: ys) ≠ "" := by
  intro hcontra
  have hdata : (pyJoinComma (x :: y :: ys)).data = [] := by rw [hcontra]
  have : x.data ++ ',' :: joinCommaChars (y.data :: ys.map String.data) = [] := hdata
  simp at this

/-- The branches column round trip as performed by the handlers: join on
write (src/crud.py line 183), truthiness-guarded split on read (line 148).
It restores the submitted list whenever no label holds a comma and the list
is not exactly the singleton empty label. -/
lemma branchesOut_pyJoinComma (l : List String)
    (h : ∀ b ∈ l, ',' ∉ b.data) (hne : l ≠ [""]) :
    branchesOut (some (pyJoinComma l)) = l := by
  match l with
  | [] => rfl
  | [x] =>
    have hx : ¬ (pyJoinComma [x] = "") := by
      rw [pyJoinComma_single]
      intro hx
      exact hne (by rw [hx])
    simp only [branchesOut, if_neg hx]
    exact pySplitComma_pyJoinComma x [] h
  | x :: y :: ys =>
    have hx := pyJoinComma_cons_cons_ne_empty x y ys
    simp only [branchesOut, if_neg hx]
    exact pySplitComma_pyJoinComma x (y :: ys) h

/-- A scan that fails on every earlier row finds the appended row. -/
lemma find?_append_last {α : Type} (p : α → Bool) (l : List α) (a : α)
    (h : ∀ x ∈ l, ¬ p x) (ha : p a) : (l ++ [a]).find? p = some a := by
  induction l with
  | nil =>
    rw [List.nil_append]
    exact List.find?_cons_of_pos [] ha
  | cons b t ih =>
    have hb : ¬ p b := h b (by simp)
    rw [List.cons_append, List.find?_cons_of_neg _ hb]
    exact ih (fun x hx => h x (by simp [hx]))

/-- Under the primary-key invariant, the id scan finds the member row. -/
lemma find?_eq_of_mem_nodup (l : List CompanyRow)
    (hnd : (l.map CompanyRow.id).Nodup) (c : CompanyRow) (hc : c ∈ l) :
    l.find? (fun r => r.id == c.id) = some c := by
  induction l with
  | nil => cases hc
  | cons a t ih =>
    rw [List.map_cons, List.nodup_cons] at hnd
    rcases List.mem_cons.mp hc with rfl | hct
    · exact List.find?_cons_of_pos t (by simp)
    · have hmem : c.id ∈ t.map CompanyRow.id := List.mem_map_of_mem CompanyRow.id hct
      have hne : ¬ ((a.id == c.id) = true) := by
        simp only [beq_iff_eq]
        intro hid
        exact hnd.1 (by rw [hid]; exact hmem)
      rw [List.find?_cons_of_neg t hne]
      exact ih hnd.2 hct

/-- Rows of a table whose ids are pairwise distinct are determined by id. -/
lemma row_eq_of_id_eq (l : List CompanyRow) (hnd : (l.map CompanyRow.id).Nodup)
    (a b : CompanyRow) (ha : a ∈ l) (hb : b ∈ l) (hid : a.id = b.id) : a = b :=
  List.inj_on_of_nodup_map hnd ha hb hid

/-- The modelled bcrypt digest never equals the plaintext it hashes: it is
strictly longer by the scheme header and the salt. -/
lemma bcryptHash_ne_plaintext (salt pw : String) : bcryptHash salt pw ≠ pw := by
  intro heq
  have hlen := congrArg String.length heq
  simp only [bcryptHash, String.length_append] at hlen
  have h7 : ("$2b$12$" : String).length = 7 := rfl
  have h1 : ("$" : String).length = 1 := rfl
  rw [h7, h1] at hlen
  omega

/-- Claim C10: for every database state, list_companies returns every
stored company row (enriched, in table order): the x_region dependency is
`Depends(lambda: None)`, the constant-None provider, so the city-filter
branch is unreachable and no header value can ever restrict the result. -/
theorem C10_list_companies_unfiltered (db : DB) :
    list_companies db = db.companies.map enrich_company_output := rfl

/-- Claim C3: creating a company whose email equals a stored company's
email fails with HTTP 400 Conflict; the handler raises before building the
row, and the error result carries no new state, so the company table is
unchanged. -/
theorem C3_create_company_conflict (db : DB) (req : CompanyCreate) (now : Nat)
    (h : ∃ c ∈ db.companies, c.email = req.email) :
    create_company db req now = .error (.http 400 "Email already in use") := by
  rcases h with ⟨c, hc, he⟩
  have hs : (db.companies.find? (fun c => c.email == req.email)).isSome :=
    List.find?_isSome.mpr ⟨c, hc, by simp [he]⟩
  simp [create_company, hs]

/-- Witness for C3 at a concrete state and request. -/
theorem C3_witness :
    create_company wDB wReqDup 7 = .error (.http 400 "Email already in use") :=
  C3_create_company_conflict wDB wReqDup 7 ⟨wAcme, by decide, rfl⟩

/-- Claim C9: deleting an absent company id returns 404 Not Found (the
error result carries no new state, so the table is unchanged), and after
one successful delete of an id every repeated delete of that id returns
404 and never succeeds again. -/
theorem C9_delete_company_idem (db db0 db1 : DB) (cid cid0 : Nat)
    (h : ∀ c ∈ db.companies, c.id ≠ cid)
    (hdel : delete_company db0 cid0 = .ok db1) :
    delete_company db cid = .error (.http 404 "Company not found") ∧
    delete_company db1 cid0 = .error (.http 404 "Company not found") := by
  constructor
  · have hf : db.companies.find? (fun c => c.id == cid) = none :=
      List.find?_eq_none.mpr (fun c hc => by simp [h c hc])
    simp [delete_company, hf]
  · unfold delete_company at hdel
    cases hfind : db0.companies.find? (fun c => c.id == cid0) with
    | none => rw [hfind] at hdel; cases hdel
    | some c =>
      rw [hfind] at hdel
      injection hdel with h1
      subst h1
      have hf : (db0.companies.filter (fun c => !(c.id == cid0))).find?
          (fun c => c.id == cid0) = none := by
        apply List.find?_eq_none.mpr
        intro x hx
        have hfil := List.of_mem_filter hx
        simp at hfil ⊢
        exact hfil
      simp [delete_company, hf]

/-- Witness for C9: a delete on the empty table, and a repeated delete
after the successful delete of company 1. -/
theorem C9_witness :
    delete_company dbEmpty 5 = .error (.http 404 "Company not found") ∧
    delete_company wDBdel 1 = .error (.http 404 "Company not found") :=
  C9_delete_company_idem dbEmpty wDB wDBdel 5 1 (by decide) rfl

/-- Claim C6 counterexample: a registration whose company_name ("Ghost")
matches no stored company but whose email is already registered fails with
400 Conflict, not 404 Not Found — the duplicate-email check (src/crud.py
line 272) runs before the company lookup (line 276). -/
theorem C6_counterexample :
    register_employee wDB wRegGhost "s9"
        = .error (.http 400 "Employee email already exists") ∧
    register_employee wDB wRegGhost "s9"
        ≠ .error (.http 404 "Company not found") := by
  refine ⟨rfl, ?_⟩
  intro hcontra
  have : ApiError.http 400 "Employee email already exists"
      = ApiError.http 404 "Company not found" := by
    have h1 := hcontra.symm.trans (rfl :
      register_employee wDB wRegGhost "s9"
        = .error (.http 400 "Employee email already exists"))
    injection h1.symm
  injection this with hstat
  cases hstat

/-- Claim C6 (amended): for every registration whose email is not already
an employee's email and whose company_name matches no stored company,
register_employee fails with 404 Not Found; the handler raises before any
insert and the error carries no new state, so the employee table is
unchanged. -/
theorem C6_register_company_not_found (db : DB) (emp : EmployeeRegister)
    (salt : String)
    (hfresh : ∀ e ∈ db.employees, e.email ≠ emp.email)
    (hco : ∀ c ∈ db.companies, c.name ≠ emp.company_name) :
    register_employee db emp salt = .error (.http 404 "Company not found") := by
  have hf1 : db.employees.find? (fun e => e.email == emp.email) = none :=
    List.find?_eq_none.mpr (fun e he => by simp [hfresh e he])
  have hf2 : db.companies.find? (fun c => c.name == emp.company_name) = none :=
    List.find?_eq_none.mpr (fun c hc => by simp [hco c hc])
  simp [register_employee, hf1, hf2]

/-- Witness for the amended C6 at a concrete state and request. -/
theorem C6_witness :
    register_employee wDB
      { name := "Eve", email := "eve@x.com", password := "p", role := "qa",
        company_name := "Ghost" } "s3"
      = .error (.http 404 "Company not found") :=
  C6_register_company_not_found wDB
    { name := "Eve", email := "eve@x.com", password := "p", role := "qa",
      company_name := "Ghost" } "s3" (by decide) (by decide)

/-- Claim C1 (code bug): for every registration whose email is fresh and
whose company_name matches a stored company, register_employee never
stores a row and never returns a record — it raises TypeError, because it
builds `Employee(..., password_hash=hashed_password, ...)` (src/crud.py
line 285) while the mapped class's column is named `password` (line 66, a
rename its own comment records), so the declarative constructor rejects
the keyword.  The spec's success behaviour (store the salted hash, return
the record) is the recorded intent; the code is the slip. -/
theorem C1_register_employee_type_error (db : DB) (emp : EmployeeRegister)
    (salt : String)
    (hfresh : ∀ e ∈ db.employees, e.email ≠ emp.email)
    (hco : ∃ c ∈ db.companies, c.name = emp.company_name) :
    register_employee db emp salt
      = .error (.typeError
          "password_hash is an invalid keyword argument for Employee") := by
  have hf1 : db.employees.find? (fun e => e.email == emp.email) = none :=
    List.find?_eq_none.mpr (fun e he => by simp [hfresh e he])
  rcases hco with ⟨c, hc, hn⟩
  have hs : (db.companies.find? (fun k => k.name == emp.company_name)).isSome :=
    List.find?_isSome.mpr ⟨c, hc, by simp [hn]⟩
  cases hfind : db.companies.find? (fun k => k.name == emp.company_name) with
  | none => rw [hfind] at hs; cases hs
  | some c₂ => simp [register_employee, hf1, hfind]

/-- Witness for C1 at a concrete state and a valid registration. -/
theorem C1_witness :
    register_employee wDB wRegOk "s2"
      = .error (.typeError
          "password_hash is an invalid keyword argument for Employee") :=
  C1_register_employee_type_error wDB wRegOk "s2" (by decide)
    ⟨wAcme, by decide, rfl⟩

/-- Claim C7: whenever no stored employee carries the submitted email, or
the stored row's password column does not verify against the submitted
password, login_employee fails with 401 Unauthorized; and the salted
digest register_employee computes for the password column never equals
the submitted plaintext. -/
theorem C7_login_unauthorized (db : DB) (emp : EmployeeLogin)
    (salt pw : String)
    (h : ∀ e ∈ db.employees, e.email = emp.email →
      bcryptVerify emp.password e.password = false) :
    login_employee db emp = .error (.http 401 "Invalid email or password") ∧
    bcryptHash salt pw ≠ pw := by
  refine ⟨?_, bcryptHash_ne_plaintext salt pw⟩
  unfold login_employee
  cases hfind : db.employees.find? (fun e => e.email == emp.email) with
  | none => rfl
  | some e =>
    have hmem := List.mem_of_find?_eq_some hfind
    have heq : e.email = emp.email := by
      have hp := List.find?_some hfind
      simpa using hp
    simp [h e hmem heq]

/-- Witness for C7: a wrong password against the stored digest. -/
theorem C7_witness :
    login_employee wDB { email := "bob@x.com", password := "wrong" }
        = .error (.http 401 "Invalid email or password") ∧
    bcryptHash "s1" "pw" ≠ "pw" :=
  C7_login_unauthorized wDB { email := "bob@x.com", password := "wrong" }
    "s1" "pw" (by decide)

/-- Claim C2 counterexample: creating a company with the single branch
label "a,b" (a label holding a comma) succeeds, but the record read back
by get_company carries branches ["a", "b"], not the submitted ["a,b"] —
the comma-join on write (src/crud.py line 183) is not injective and the
comma-split on read (line 148) cuts inside the label. -/
theorem C2_counterexample :
    create_company dbEmpty wReqComma 0
      = .ok (enrich_company_output (createdRow dbEmpty wReqComma 0),
             afterCreate dbEmpty wReqComma 0) ∧
    get_company (afterCreate dbEmpty wReqComma 0)
        (enrich_company_output (createdRow dbEmpty wReqComma 0)).id
      = .ok (enrich_company_output (createdRow dbEmpty wReqComma 0)) ∧
    (enrich_company_output (createdRow dbEmpty wReqComma 0)).branches
      = ["a", "b"] ∧
    wReqComma.branches = ["a,b"] ∧
    (enrich_company_output (createdRow dbEmpty wReqComma 0)).branches
      ≠ wReqComma.branches :=
  ⟨rfl, rfl, by decide, rfl, by decide⟩

/-- Claim C2 (amended): for every create request whose email matches no
stored company, whose branch labels are each free of commas, and whose
branch list is not the singleton empty label, create_company succeeds and
get_company on the returned id yields the created record with branches
equal to the submitted list in original order.  (The primary-key
hypothesis says the autoincrement counter is ahead of every stored id, as
the database guarantees.) -/
theorem C2_create_company_roundtrip (db : DB) (req : CompanyCreate) (now : Nat)
    (hfresh : ∀ c ∈ db.companies, c.email ≠ req.email)
    (hid : ∀ c ∈ db.companies, c.id ≠ db.nextCompanyId)
    (hb : ∀ b ∈ req.branches, ',' ∉ b.data)
    (hne : req.branches ≠ [""]) :
    create_company db req now
      = .ok (enrich_company_output (createdRow db req now),
             afterCreate db req now) ∧
    get_company (afterCreate db req now)
        (enrich_company_output (createdRow db req now)).id
      = .ok (enrich_company_output (createdRow db req now)) ∧
    (enrich_company_output (createdRow db req now)).branches
      = req.branches := by
  have hf : db.companies.find? (fun c => c.email == req.email) = none :=
    List.find?_eq_none.mpr (fun c hc => by simp [hfresh c hc])
  refine ⟨by simp [create_company, hf], ?_, ?_⟩
  · have hfind : (db.companies ++ [createdRow db req now]).find?
        (fun c => c.id == db.nextCompanyId) = some (createdRow db req now) := by
      apply find?_append_last
      · intro x hx
        simp [hid x hx]
      · simp [createdRow]
    show (match (db.companies ++ [createdRow db req now]).find?
        (fun c => c.id == db.nextCompanyId) with
      | none => Except.error (ApiError.http 404 "Company not found")
      | some c => Except.ok (enrich_company_output c))
      = .ok (enrich_company_output (createdRow db req now))
    rw [hfind]
  · show branchesOut (some (pyJoinComma req.branches)) = req.branches
    exact branchesOut_pyJoinComma req.branches hb hne

/-- Witness for the amended C2 at a concrete state and request. -/
theorem C2_witness :
    create_company wDB wReqNew 9
      = .ok (enrich_company_output (createdRow wDB wReqNew 9),
             afterCreate wDB wReqNew 9) ∧
    get_company (afterCreate wDB wReqNew 9)
        (enrich_company_output (createdRow wDB wReqNew 9)).id
      = .ok (enrich_company_output (createdRow wDB wReqNew 9)) ∧
    (enrich_company_output (createdRow wDB wReqNew 9)).branches
      = wReqNew.branches :=
  C2_create_company_roundtrip wDB wReqNew 9 (by decide) (by decide)
    (by decide) (by decide)

/-- Claim C8: for every well-keyed database state, get_company on the id
of any record returned by list_companies yields that same record,
field for field. -/
theorem C8_list_get_consistent (db : DB) (out : CompanyOut)
    (hnd : (db.companies.map CompanyRow.id).Nodup)
    (hout : out ∈ list_companies db) :
    get_company db out.id = .ok out := by
  have hmem : out ∈ db.companies.map enrich_company_output := hout
  rcases List.mem_map.mp hmem with ⟨c, hc, rfl⟩
  have hfind : db.companies.find?
      (fun r => r.id == (enrich_company_output c).id) = some c :=
    find?_eq_of_mem_nodup db.companies hnd c hc
  simp [get_company, hfind]

/-- Witness for C8 at a concrete state and listed record. -/
theorem C8_witness :
    get_company wDB (enrich_company_output wAcme).id
      = .ok (enrich_company_output wAcme) :=
  C8_list_get_consistent wDB (enrich_company_output wAcme) (by decide)
    (by decide)

/-- Claim C4: updating a stored company with a form that supplies only the
city field rewrites exactly that row's city; the returned state maps every
row with the target id to a copy differing only in city, and leaves every
other row untouched. -/
theorem C4_update_company_city_frame (db : DB) (c : CompanyRow) (x : String)
    (hnd : (db.companies.map CompanyRow.id).Nodup) (hc : c ∈ db.companies) :
    update_company db c.id (cityOnly x)
      = .ok (enrich_company_output { c with city := some x },
             cityPatched db c.id x) := by
  have hfind := find?_eq_of_mem_nodup db.companies hnd c hc
  have hconf : emailChangeConflict db c (cityOnly x) = false := rfl
  have happ : applyUpdates c (cityOnly x) = { c with city := some x } := rfl
  simp [update_company, cityPatched, hfind, hconf, happ]
  intro r hr
  by_cases hrc : r.id = c.id
  · have hre : r = c := row_eq_of_id_eq db.companies hnd r c hr hc hrc
    subst hre
    simp
  · simp [hrc]

/-- Witness for C4 at a concrete state, row and city value. -/
theorem C4_witness :
    update_company wDB wAcme.id (cityOnly "Dallas")
      = .ok (enrich_company_output { wAcme with city := some "Dallas" },
             cityPatched wDB wAcme.id "Dallas") :=
  C4_update_company_city_frame wDB wAcme "Dallas" (by decide) (by decide)

/-- Claim C5: on an update of a stored company that supplies an email
different from the row's current one, update_company fails with 400
Conflict when some other stored company already carries that email; and
the check behaviourally excludes the row being updated, since a request
re-submitting the row's own current email never reaches the collision
scan and never conflicts. -/
theorem C5_update_email_uniqueness (db : DB) (c : CompanyRow) (e : String)
    (req req2 : CompanyUpdate)
    (hnd : (db.companies.map CompanyRow.id).Nodup) (hc : c ∈ db.companies)
    (hreqe : req.email = some e) (he : e ≠ "") (hne : e ≠ c.email)
    (hdup : ∃ d ∈ db.companies, d.email = e)
    (hreq2 : req2.email = some c.email) :
    update_company db c.id req = .error (.http 400 "Email already in use") ∧
    update_company db c.id req2 ≠ .error (.http 400 "Email already in use") := by
  have hfind := find?_eq_of_mem_nodup db.companies hnd c hc
  constructor
  · have hconf : emailChangeConflict db c req = true := by
      rcases hdup with ⟨d, hd, hde⟩
      have hs : (db.companies.find? (fun k => k.email == e)).isSome :=
        List.find?_isSome.mpr ⟨d, hd, by simp [hde]⟩
      simp [emailChangeConflict, hreqe, he, hne, hs]
    simp [update_company, hfind, hconf]
  · have hconf : emailChangeConflict db c req2 = false := by
      simp [emailChangeConflict, hreq2]
    simp [update_company, hfind, hconf]

/-- Witness for C5: a collision with the other stored row's email, and a
no-conflict re-submission of the row's own email. -/
theorem C5_witness :
    update_company wDB wAcme.id (emailOnly "b@x.com")
      = .error (.http 400 "Email already in use") ∧
    update_company wDB wAcme.id (emailOnly "a@x.com")
      ≠ .error (.http 400 "Email already in use") :=
  C5_update_email_uniqueness wDB wAcme "b@x.com" (emailOnly "b@x.com")
    (emailOnly "a@x.com") (by decide) (by decide) rfl (by decide) (by decide)
    ⟨wBeta, by decide, rfl⟩ rfl

end Crud
